import Mathlib

/-!
Verification of the meeting-notes summary editor (SummaryEditor component)
and its two API routes (POST /share, POST /summarize).

The editor state and its handlers are embedded shallowly: React `useState`
fields become fields of `EditorState`; each event handler becomes a pure
state transformer.  A handler that calls several setters reads the values
captured in its closure, which the pure translation reflects by reading
from the input state.
-/

/-- The SummaryEditor component state: `isEditing`, `editedSummary` (the
Buffer), `history`, `historyIndex` and the externally supplied `summary`
prop (`summaryProp`).  `lastSaved`, word and char counters are derived
display-only data and are omitted. -/
structure EditorState where
  isEditing : Bool
  editedSummary : String
  history : List String
  historyIndex : Nat
  summaryProp : String
  deriving DecidableEq

/-- Initial component state: `history = [summary]`, `historyIndex = 0`,
buffer equal to the prop, preview mode. -/
def initState (summary : String) : EditorState :=
  { isEditing := false
    editedSummary := summary
    history := [summary]
    historyIndex := 0
    summaryProp := summary }

/-- `addToHistory(newSummary)`: `history.slice(0, historyIndex + 1)` is
`List.take (historyIndex + 1)`, then `push(newSummary)`, then the index is
set to the new last position. -/
def addToHistory (s : EditorState) (newSummary : String) : EditorState :=
  let newHistory := s.history.take (s.historyIndex + 1) ++ [newSummary]
  { s with history := newHistory, historyIndex := newHistory.length - 1 }

/-- `Math.abs(a.length - b.length)` over the two strings. -/
def lenDelta (a b : String) : Nat :=
  Int.natAbs ((a.length : Int) - (b.length : Int))

/-- `handleTextChange(value)`: sets the buffer to `value`; when the length
delta against the previous buffer exceeds 10, also commits `value` via
`addToHistory` (which reads the pre-event history and index). -/
def handleTextChange (s : EditorState) (value : String) : EditorState :=
  let s1 := { s with editedSummary := value }
  if 10 < lenDelta value s.editedSummary then addToHistory s1 value else s1

/-- `handleSave`: publishes the buffer through `onSummaryChange` (modelled
as overwriting `summaryProp`), leaves edit mode and commits the buffer. -/
def handleSave (s : EditorState) : EditorState :=
  addToHistory { s with summaryProp := s.editedSummary, isEditing := false }
    s.editedSummary

/-- `handleCancel`: resets the buffer to the `summary` prop and leaves edit
mode; history and index are untouched. -/
def handleCancel (s : EditorState) : EditorState :=
  { s with editedSummary := s.summaryProp, isEditing := false }

/-- `handleUndo`: when `historyIndex > 0`, decrement the index and load
`history[newIndex]` into the buffer; otherwise do nothing. -/
def handleUndo (s : EditorState) : EditorState :=
  if 0 < s.historyIndex then
    { s with historyIndex := s.historyIndex - 1
             editedSummary := s.history.getD (s.historyIndex - 1) "" }
  else s

/-- `handleRedo`: when `historyIndex < history.length - 1`, increment the
index and load `history[newIndex]` into the buffer; otherwise do nothing. -/
def handleRedo (s : EditorState) : EditorState :=
  if s.historyIndex < s.history.length - 1 then
    { s with historyIndex := s.historyIndex + 1
             editedSummary := s.history.getD (s.historyIndex + 1) "" }
  else s

/-- `insertFormatting(before, after)` with the textarea selection bounds
`start`/`endPos` passed explicitly: splices `before ++ selected ++ after`
over the selection (`substring` is `take`/`drop`; the claims only use
`start ≤ endPos ≤ length`, where this agrees with JS `substring`), sets the
buffer, commits unconditionally, and restores the selection shifted by
`before.length`.  The restored selection is returned alongside the state. -/
def insertFormatting (s : EditorState) (before after : String)
    (start endPos : Nat) : EditorState × Nat × Nat :=
  let selectedText := (s.editedSummary.take endPos).drop start
  let newText := s.editedSummary.take start ++ before ++ selectedText ++ after
      ++ s.editedSummary.drop endPos
  (addToHistory { s with editedSummary := newText } newText,
    start + before.length, endPos + before.length)

/-- The spec's `Commit(text)` as it occurs at every call site of
`addToHistory` in the component: the buffer already holds (or is set to)
the committed text, and `addToHistory` truncates, appends and repoints. -/
def commit (s : EditorState) (x : String) : EditorState :=
  addToHistory { s with editedSummary := x } x

/-- Claim C7: Cancel sets the Buffer to the externally supplied summary,
exits Editing mode, and leaves History, the history index and the summary
prop exactly unchanged. -/
theorem cancel_frame (s : EditorState) :
    (handleCancel s).editedSummary = s.summaryProp ∧
    (handleCancel s).isEditing = false ∧
    (handleCancel s).history = s.history ∧
    (handleCancel s).historyIndex = s.historyIndex ∧
    (handleCancel s).summaryProp = s.summaryProp :=
  ⟨rfl, rfl, rfl, rfl, rfl⟩

/-- Claim C4: Undo at index 0 and Redo at the last index are no-ops;
otherwise Undo decrements the index and loads `History[index]`, and Redo
increments the index and loads `History[index]`. -/
theorem undo_redo_guard_spec (s : EditorState) :
    (s.historyIndex = 0 → handleUndo s = s) ∧
    (s.historyIndex = s.history.length - 1 → handleRedo s = s) ∧
    (0 < s.historyIndex → handleUndo s =
      { s with historyIndex := s.historyIndex - 1
               editedSummary := s.history.getD (s.historyIndex - 1) "" }) ∧
    (s.historyIndex < s.history.length - 1 → handleRedo s =
      { s with historyIndex := s.historyIndex + 1
               editedSummary := s.history.getD (s.historyIndex + 1) "" }) := by
  refine ⟨?_, ?_, ?_, ?_⟩ <;> intro h
  · simp [handleUndo, h]
  · simp [handleRedo, h]
  · simp [handleUndo, h]
  · simp [handleRedo, h]

/-- Witness for C4 at concrete states exercising all four guards. -/
theorem undo_redo_guard_spec_witness :
    handleUndo (initState "a") = initState "a" ∧
    handleRedo (initState "a") = initState "a" ∧
    handleUndo (commit (initState "a") "b") =
      { commit (initState "a") "b" with
          historyIndex := (commit (initState "a") "b").historyIndex - 1
          editedSummary := (commit (initState "a") "b").history.getD
            ((commit (initState "a") "b").historyIndex - 1) "" } ∧
    handleRedo (handleUndo (commit (initState "a") "b")) =
      { handleUndo (commit (initState "a") "b") with
          historyIndex :=
            (handleUndo (commit (initState "a") "b")).historyIndex + 1
          editedSummary :=
            (handleUndo (commit (initState "a") "b")).history.getD
              ((handleUndo (commit (initState "a") "b")).historyIndex + 1) "" } :=
  ⟨(undo_redo_guard_spec (initState "a")).1 rfl,
   (undo_redo_guard_spec (initState "a")).2.1 (by decide),
   (undo_redo_guard_spec (commit (initState "a") "b")).2.2.1 (by decide),
   (undo_redo_guard_spec
     (handleUndo (commit (initState "a") "b"))).2.2.2 (by decide)⟩

/-- A state whose index points at the last history entry and whose buffer
equals that entry; every `commit` (re)establishes this. -/
def GoodState (s : EditorState) : Prop :=
  s.historyIndex + 1 = s.history.length ∧
  s.editedSummary = s.history.getD s.historyIndex ""

theorem getD_concat (l : List String) (x : String) :
    (l ++ [x]).getD l.length "" = x := by
  induction l with
  | nil => rfl
  | cons a t ih => simp [List.getD, ih]

theorem commit_good (s : EditorState) (x : String) : GoodState (commit s x) := by
  constructor
  · simp [commit, addToHistory]
  · have h := getD_concat (s.history.take (s.historyIndex + 1)) x
    simp only [commit, addToHistory, List.length_append, List.length_singleton,
      Nat.add_sub_cancel]
    exact h.symm

theorem foldl_commit_good (t : List String) (s : EditorState)
    (h : GoodState s) : GoodState (t.foldl commit s) := by
  induction t generalizing s with
  | nil => exact h
  | cons x t ih => exact ih (commit s x) (commit_good s x)

theorem initState_good (init : String) : GoodState (initState init) := by
  constructor <;> simp [initState, List.getD]

theorem roundtrip_of_good (s : EditorState) (h : GoodState s) :
    (handleRedo (handleUndo s)).editedSummary = s.editedSummary ∧
    (handleRedo (handleUndo s)).historyIndex = s.historyIndex := by
  obtain ⟨h1, h2⟩ := h
  obtain ⟨ie, buf, hist, idx, sp⟩ := s
  simp only at h1 h2
  cases idx with
  | zero =>
    have hlen : hist.length = 1 := by omega
    constructor <;> simp [handleUndo, handleRedo, hlen]
  | succ k =>
    have hg1 : 0 < k + 1 := Nat.succ_pos k
    have hg2 : k < hist.length - 1 := by omega
    constructor <;>
      simp [handleUndo, handleRedo, hg1, hg2, h2]

/-- Claim C1: from any state reached by a sequence of Commits out of the
initial state, Undo followed immediately by Redo restores the exact prior
Buffer value and leaves the history index where it was before the Undo. -/
theorem commit_undo_redo_roundtrip (init : String) (xs : List String) :
    (handleRedo (handleUndo (xs.foldl commit (initState init)))).editedSummary =
      (xs.foldl commit (initState init)).editedSummary ∧
    (handleRedo (handleUndo (xs.foldl commit (initState init)))).historyIndex =
      (xs.foldl commit (initState init)).historyIndex :=
  roundtrip_of_good _ (foldl_commit_good xs _ (initState_good init))

/-- Claim C3: Commit(x) after an Undo truncates History to the entries up
to the current index, appends x, points the index at the new last
position, and makes a subsequent Redo a no-op. -/
theorem commit_after_undo_redo_noop (s : EditorState) (x : String) :
    (commit (handleUndo s) x).history =
      (handleUndo s).history.take ((handleUndo s).historyIndex + 1) ++ [x] ∧
    (commit (handleUndo s) x).historyIndex =
      (commit (handleUndo s) x).history.length - 1 ∧
    handleRedo (commit (handleUndo s) x) = commit (handleUndo s) x := by
  refine ⟨rfl, rfl, ?_⟩
  have hno : ¬ (commit (handleUndo s) x).historyIndex <
      (commit (handleUndo s) x).history.length - 1 := by
    simp [commit, addToHistory]
  simp [handleRedo, hno]

/-- Claim C5: InsertFormatting replaces the selected range of the Buffer
with before ++ selected ++ after, always commits the result to History
(regardless of the length-delta threshold), and reports the restored
selection as the original bounds offset by the length of `before`; on the
buffer "hello world" with markers "**"/"**" and selection [0,5) the result
is "**hello** world" with a freshly appended history entry. -/
theorem insertFormatting_spec (s : EditorState) (b a : String)
    (st en : Nat) :
    (insertFormatting s b a st en).1.editedSummary =
      s.editedSummary.take st ++ b ++ ((s.editedSummary.take en).drop st)
        ++ a ++ s.editedSummary.drop en ∧
    (insertFormatting s b a st en).1.history =
      s.history.take (s.historyIndex + 1) ++
        [(insertFormatting s b a st en).1.editedSummary] ∧
    (insertFormatting s b a st en).1.historyIndex =
      (s.history.take (s.historyIndex + 1)).length ∧
    (insertFormatting s b a st en).2 = (st + b.length, en + b.length) ∧
    (insertFormatting (initState "hello world") "**" "**" 0 5).1.editedSummary
      = "**hello** world" ∧
    (insertFormatting (initState "hello world") "**" "**" 0 5).1.history
      = ["hello world", "**hello** world"] ∧
    (insertFormatting (initState "hello world") "**" "**" 0 5).2 = (2, 7) := by
  refine ⟨rfl, rfl, ?_, rfl, ?_, ?_, ?_⟩
  · simp [insertFormatting, addToHistory]
  · decide
  · decide
  · decide

/-- Claim C9: a single Type(newText) creates a new History entry (via
`addToHistory`: the history becomes the truncation at the index followed
by the new text, and the index moves to that new last position) exactly
when the length delta against the preceding buffer is strictly greater
than 10; a delta of at most 10 changes only the buffer. -/
theorem type_checkpoint_iff_delta (s : EditorState) (v : String) :
    (10 < lenDelta v s.editedSummary →
      (handleTextChange s v).history =
        s.history.take (s.historyIndex + 1) ++ [v] ∧
      (handleTextChange s v).historyIndex =
        (s.history.take (s.historyIndex + 1)).length ∧
      (handleTextChange s v).editedSummary = v) ∧
    (lenDelta v s.editedSummary ≤ 10 →
      (handleTextChange s v).history = s.history ∧
      (handleTextChange s v).historyIndex = s.historyIndex ∧
      (handleTextChange s v).editedSummary = v) := by
  constructor <;> intro h
  · refine ⟨?_, ?_, ?_⟩ <;> simp [handleTextChange, h, addToHistory]
  · have hno : ¬ 10 < lenDelta v s.editedSummary := by omega
    refine ⟨?_, ?_, ?_⟩ <;> simp [handleTextChange, hno]

/-- Witness for C9: a 13-character jump from the empty buffer commits, a
2-character one does not. -/
theorem type_checkpoint_iff_delta_witness :
    ((handleTextChange (initState "") "0123456789012").history =
        (initState "").history.take ((initState "").historyIndex + 1)
          ++ ["0123456789012"] ∧
      (handleTextChange (initState "") "0123456789012").historyIndex =
        ((initState "").history.take ((initState "").historyIndex + 1)).length ∧
      (handleTextChange (initState "") "0123456789012").editedSummary =
        "0123456789012") ∧
    ((handleTextChange (initState "") "ab").history = (initState "").history ∧
      (handleTextChange (initState "") "ab").historyIndex =
        (initState "").historyIndex ∧
      (handleTextChange (initState "") "ab").editedSummary = "ab") :=
  ⟨(type_checkpoint_iff_delta (initState "") "0123456789012").1 (by decide),
   (type_checkpoint_iff_delta (initState "") "ab").2 (by decide)⟩

/-- C2 counterexample: two Type operations each changing the buffer length
by at most 10 (here 6 and 6) accumulate a drift of 12 > 10 against the
last committed checkpoint (the initial entry, length 0), yet no checkpoint
is committed: the history is still the single initial entry. -/
theorem cumulative_drift_no_checkpoint :
    lenDelta "123456" (initState "").editedSummary ≤ 10 ∧
    lenDelta "123456789012"
      (handleTextChange (initState "") "123456").editedSummary ≤ 10 ∧
    10 < (handleTextChange (handleTextChange (initState "") "123456")
        "123456789012").editedSummary.length
      - (initState "").editedSummary.length ∧
    (handleTextChange (handleTextChange (initState "") "123456")
        "123456789012").history = (initState "").history ∧
    (handleTextChange (handleTextChange (initState "") "123456")
        "123456789012").historyIndex = 0 := by
  decide

/-- Every step of the list changes the running buffer length by at most
10 characters. -/
def smallStepsB : String → List String → Bool
  | _, [] => true
  | b, v :: vs => if lenDelta v b ≤ 10 then smallStepsB v vs else false

/-- C2 amended: along any sequence of Type operations in which every
single operation changes the buffer length by at most 10 characters, no
checkpoint is ever committed — History and the index are unchanged no
matter how large the cumulative drift since the last checkpoint grows
(the code compares each edit only against the immediately preceding
buffer, never against the last committed checkpoint). -/
theorem small_edits_never_checkpoint (s : EditorState) (vs : List String)
    (h : smallStepsB s.editedSummary vs = true) :
    (vs.foldl handleTextChange s).history = s.history ∧
    (vs.foldl handleTextChange s).historyIndex = s.historyIndex := by
  induction vs generalizing s with
  | nil => exact ⟨rfl, rfl⟩
  | cons v vs ih =>
    rw [smallStepsB] at h
    split at h
    · rename_i hsmall
      have hno : ¬ 10 < lenDelta v s.editedSummary := by omega
      have hstep : handleTextChange s v = { s with editedSummary := v } := by
        simp [handleTextChange, hno]
      rw [List.foldl_cons, hstep]
      exact ih { s with editedSummary := v } h
    · exact absurd h (by simp)

/-- Witness for the amended C2 on the counterexample trace itself. -/
theorem small_edits_never_checkpoint_witness :
    smallStepsB (initState "").editedSummary ["123456", "123456789012"]
      = true ∧
    ((["123456", "123456789012"].foldl handleTextChange
        (initState "")).history = (initState "").history ∧
      (["123456", "123456789012"].foldl handleTextChange
        (initState "")).historyIndex = (initState "").historyIndex) :=
  ⟨by decide,
   small_edits_never_checkpoint (initState "") ["123456", "123456789012"]
     (by decide)⟩

/-- The user-visible operations of the Edit History Manager. -/
inductive EditorOp where
  | typeText (value : String)
  | commitText (x : String)
  | undo
  | redo
  | insertFmt (before after : String) (start endPos : Nat)
  | save
  | cancel
  deriving DecidableEq

/-- One step of the editor state machine. -/
def applyOp (s : EditorState) (op : EditorOp) : EditorState :=
  match op with
  | .typeText v => handleTextChange s v
  | .commitText x => commit s x
  | .undo => handleUndo s
  | .redo => handleRedo s
  | .insertFmt b a st en => (insertFormatting s b a st en).1
  | .save => handleSave s
  | .cancel => handleCancel s

/-- A state is reachable when some sequence of operations leads to it from
the freshly initialized editor. -/
def Reachable (init : String) (s : EditorState) : Prop :=
  ∃ ops : List EditorOp, s = ops.foldl applyOp (initState init)

theorem addToHistory_index_lt (s : EditorState) (x : String) :
    (addToHistory s x).historyIndex < (addToHistory s x).history.length := by
  simp [addToHistory]

theorem applyOp_index_lt (s : EditorState) (op : EditorOp)
    (h : s.historyIndex < s.history.length) :
    (applyOp s op).historyIndex < (applyOp s op).history.length := by
  cases op with
  | typeText v =>
    simp only [applyOp, handleTextChange]
    split
    · exact addToHistory_index_lt _ _
    · simpa using h
  | commitText x => exact addToHistory_index_lt _ _
  | undo =>
    simp only [applyOp, handleUndo]
    split
    · simp only
      omega
    · exact h
  | redo =>
    simp only [applyOp, handleRedo]
    split
    · rename_i hg
      simp only
      omega
    · exact h
  | insertFmt b a st en => exact addToHistory_index_lt _ _
  | save => exact addToHistory_index_lt _ _
  | cancel => simpa [applyOp, handleCancel] using h

theorem foldl_index_lt (ops : List EditorOp) (s : EditorState)
    (h : s.historyIndex < s.history.length) :
    (ops.foldl applyOp s).historyIndex < (ops.foldl applyOp s).history.length := by
  induction ops generalizing s with
  | nil => exact h
  | cons op ops ih => exact ih (applyOp s op) (applyOp_index_lt s op h)

/-- C6 counterexample: the claim demands `History[index] = Buffer`
immediately after any Undo operation.  From the initial state "X", one
small Type to "Xa" (delta 1, no checkpoint) reaches a state with buffer
"Xa" and history ["X"]; the Undo operation there is the guard no-op
(index 0), after which `History[index] = "X"` differs from the buffer
"Xa". -/
theorem noop_undo_breaks_sync :
    Reachable "X" (handleTextChange (initState "X") "Xa") ∧
    handleUndo (handleTextChange (initState "X") "Xa") =
      handleTextChange (initState "X") "Xa" ∧
    (handleUndo (handleTextChange (initState "X") "Xa")).history.getD
        (handleUndo (handleTextChange (initState "X") "Xa")).historyIndex ""
      ≠ (handleUndo (handleTextChange (initState "X") "Xa")).editedSummary :=
  ⟨⟨[EditorOp.typeText "Xa"], rfl⟩, by decide, by decide⟩

/-- C6 amended: in every state reachable from initialization through
Type, Commit, Undo, Redo, InsertFormatting, Save and Cancel operations,
the history index satisfies `0 ≤ index < length(History)`; and
immediately after any Undo or Redo operation that actually moves the
index (Undo from a positive index, Redo from below the last index),
`History[index]` equals the Buffer.  A guard no-op Undo/Redo leaves a
buffer that may diverge from `History[index]`. -/
theorem reachable_index_invariant_and_sync (init : String) (s : EditorState)
    (h : Reachable init s) :
    s.historyIndex < s.history.length ∧
    (0 < s.historyIndex →
      (handleUndo s).history.getD (handleUndo s).historyIndex ""
        = (handleUndo s).editedSummary) ∧
    (s.historyIndex < s.history.length - 1 →
      (handleRedo s).history.getD (handleRedo s).historyIndex ""
        = (handleRedo s).editedSummary) := by
  obtain ⟨ops, rfl⟩ := h
  refine ⟨foldl_index_lt ops (initState init) (by simp [initState]), ?_, ?_⟩
  · intro hpos
    have hinv := foldl_index_lt ops (initState init) (by simp [initState])
    set t := ops.foldl applyOp (initState init) with ht
    have hu : handleUndo t =
        { t with historyIndex := t.historyIndex - 1
                 editedSummary := t.history.getD (t.historyIndex - 1) "" } := by
      simp [handleUndo, hpos]
    rw [hu]
  · intro hlt
    set t := ops.foldl applyOp (initState init) with ht
    have hr : handleRedo t =
        { t with historyIndex := t.historyIndex + 1
                 editedSummary := t.history.getD (t.historyIndex + 1) "" } := by
      simp [handleRedo, hlt]
    rw [hr]

/-- Witness for the amended C6 at a state reached by one Commit. -/
theorem reachable_index_invariant_and_sync_witness :
    Reachable "a" (commit (initState "a") "bb") ∧
    ((commit (initState "a") "bb").historyIndex
        < (commit (initState "a") "bb").history.length ∧
      (0 < (commit (initState "a") "bb").historyIndex →
        (handleUndo (commit (initState "a") "bb")).history.getD
            (handleUndo (commit (initState "a") "bb")).historyIndex ""
          = (handleUndo (commit (initState "a") "bb")).editedSummary) ∧
      ((commit (initState "a") "bb").historyIndex
          < (commit (initState "a") "bb").history.length - 1 →
        (handleRedo (commit (initState "a") "bb")).history.getD
            (handleRedo (commit (initState "a") "bb")).historyIndex ""
          = (handleRedo (commit (initState "a") "bb")).editedSummary)) :=
  ⟨⟨[EditorOp.commitText "bb"], rfl⟩,
   reachable_index_invariant_and_sync "a" (commit (initState "a") "bb")
     ⟨[EditorOp.commitText "bb"], rfl⟩⟩

/-- JS falsiness of an optional string field: absent (or non-string,
collapsed to `none`) or the empty string. -/
def falsyOpt : Option String → Bool
  | none => true
  | some s => s.isEmpty

/-- A character admitted by the regex class `[^\s@]`. -/
def emailOkChar (c : Char) : Bool := !(c == '@' || c.isWhitespace)

/-- The route's `emailRegex = /^[^\s@]+@[^\s@]+\.[^\s@]+$/`: the part
before the first `@` is nonempty with no whitespace or `@`; the part
after it is nonempty with no whitespace or `@` and contains a dot at an
interior position (the regex needs nonempty `[^\s@]+` on both sides of
some dot, and a dot itself lies in `[^\s@]`). -/
def emailRegexTest (s : String) : Bool :=
  let cs := s.data
  let localPart := cs.takeWhile (fun c => c != '@')
  match cs.dropWhile (fun c => c != '@') with
  | [] => false
  | _ :: domain =>
    !localPart.isEmpty && localPart.all emailOkChar &&
      !domain.isEmpty && domain.all emailOkChar &&
      ((domain.drop 1).dropLast).contains '.'

/-- The JSON body of POST /share, with the fields the route destructures.
A missing or non-array `recipients` value is collapsed to `none` (both
fail the `!recipients || !Array.isArray(recipients)` test identically). -/
structure ShareRequest where
  recipients : Option (List String)
  subject : Option String
  body : Option String
  format : Option String
  summary : Option String
  deriving DecidableEq

/-- Outcome of POST /share: a 400 with an error message, or a success
response — the latter is produced only after `transporter.sendMail`, so
`sent` also stands for "one email was dispatched". -/
inductive ShareResult where
  | badRequest (msg : String)
  | sent (message : String) (recipients : Nat) (format : Option String)
  deriving DecidableEq

/-- True exactly on the success outcome, i.e. when an email went out. -/
def emailSent : ShareResult → Bool
  | .sent _ _ _ => true
  | .badRequest _ => false

/-- True exactly on the 400 outcomes. -/
def isBadRequest : ShareResult → Bool
  | .badRequest _ => true
  | .sent _ _ _ => false

/-- The POST /share handler: recipients check, then summary/body check,
then per-address validation, then the send. -/
def sharePost (req : ShareRequest) : ShareResult :=
  match req.recipients with
  | none => ShareResult.badRequest "At least one recipient is required"
  | some recipients =>
    if recipients.isEmpty then
      ShareResult.badRequest "At least one recipient is required"
    else if falsyOpt req.summary && falsyOpt req.body then
      ShareResult.badRequest "Summary or message body is required"
    else
      let invalidEmails := recipients.filter (fun email => !emailRegexTest email)
      if !invalidEmails.isEmpty then
        ShareResult.badRequest
          ("Invalid email addresses: " ++ String.intercalate ", " invalidEmails)
      else
        ShareResult.sent
          ("Email sent successfully to " ++ toString recipients.length
            ++ " recipient(s)")
          recipients.length req.format

/-- C8 counterexample: a request whose single recipient "bad" fails the
email-shape pattern but whose summary and body are both empty receives
the 400 for the missing body — its message does not list the invalid
address, contradicting the claim's third conditional. -/
theorem invalid_email_masked_by_body_check :
    emailRegexTest "bad" = false ∧
    sharePost ⟨some ["bad"], none, none, none, none⟩ =
      ShareResult.badRequest "Summary or message body is required" ∧
    sharePost ⟨some ["bad"], none, none, none, none⟩ ≠
      ShareResult.badRequest
        ("Invalid email addresses: " ++ String.intercalate ", " ["bad"]) := by
  refine ⟨rfl, rfl, ?_⟩
  decide

/-- C8 amended: the three validations run in order.  A missing or empty
recipients array yields a 400; empty summary and body yield a 400 for any
recipients value; and when recipients is a nonempty array, summary or
body is nonempty, and some recipient fails the email-shape pattern, the
response is a 400 whose message lists exactly the invalid addresses.  In
all these cases no email is sent. -/
theorem share_validation_ordered (req : ShareRequest) :
    ((req.recipients = none ∨ req.recipients = some []) →
      isBadRequest (sharePost req) = true ∧ emailSent (sharePost req) = false) ∧
    ((falsyOpt req.summary = true ∧ falsyOpt req.body = true) →
      isBadRequest (sharePost req) = true ∧ emailSent (sharePost req) = false) ∧
    (∀ rs, req.recipients = some rs → rs ≠ [] →
      (falsyOpt req.summary && falsyOpt req.body) = false →
      rs.filter (fun email => !emailRegexTest email) ≠ [] →
      sharePost req = ShareResult.badRequest
          ("Invalid email addresses: " ++ String.intercalate ", "
            (rs.filter (fun email => !emailRegexTest email))) ∧
      emailSent (sharePost req) = false) := by
  refine ⟨?_, ?_, ?_⟩
  · rintro (h | h) <;> simp [sharePost, h, isBadRequest, emailSent]
  · rintro ⟨hs, hb⟩
    match hrec : req.recipients with
    | none => simp [sharePost, hrec, isBadRequest, emailSent]
    | some rs =>
      by_cases he : rs.isEmpty <;>
        simp [sharePost, hrec, he, hs, hb, isBadRequest, emailSent]
  · intro rs hrec hne hsb hinv
    have he : rs.isEmpty = false := by
      simpa [List.isEmpty_iff] using hne
    have hinv2 : (rs.filter (fun email => !emailRegexTest email)).isEmpty
        = false := by
      simpa [List.isEmpty_iff] using hinv
    simp [sharePost, hrec, he, hsb, hinv2, emailSent]

/-- Witness for the amended C8: one request per validation branch. -/
theorem share_validation_ordered_witness :
    (isBadRequest (sharePost ⟨none, none, none, none, none⟩) = true ∧
      emailSent (sharePost ⟨none, none, none, none, none⟩) = false) ∧
    (isBadRequest (sharePost ⟨some ["a@b.c"], none, none, none, none⟩) = true ∧
      emailSent (sharePost ⟨some ["a@b.c"], none, none, none, none⟩) = false) ∧
    (sharePost ⟨some ["bad"], none, some "hi", none, none⟩ =
        ShareResult.badRequest
          ("Invalid email addresses: " ++ String.intercalate ", "
            (["bad"].filter (fun email => !emailRegexTest email))) ∧
      emailSent (sharePost ⟨some ["bad"], none, some "hi", none, none⟩)
        = false) :=
  ⟨(share_validation_ordered ⟨none, none, none, none, none⟩).1 (Or.inl rfl),
   (share_validation_ordered ⟨some ["a@b.c"], none, none, none, none⟩).2.1
     ⟨rfl, rfl⟩,
   (share_validation_ordered ⟨some ["bad"], none, some "hi", none, none⟩).2.2
     ["bad"] rfl (by decide) (by decide) (by decide)⟩

/-- The JSON body of POST /summarize, with the fields the route
destructures. -/
structure SummarizeRequest where
  transcript : Option String
  prompt : Option String
  model : Option String
  template : Option String
  deriving DecidableEq

/-- Outcome of POST /summarize: a 400 with an error message, or a 200
carrying the generated summary. -/
inductive SummarizeResult where
  | badRequest (msg : String)
  | ok (summary : String)
  deriving DecidableEq

/-- True exactly when a summary was generated and returned. -/
def summaryGenerated : SummarizeResult → Bool
  | .ok _ => true
  | .badRequest _ => false

/-- A JS template literal renders a missing (undefined) field as the text
"undefined". -/
def jsStr : Option String → String
  | none => "undefined"
  | some s => s

/-- `generateMockSummary(template, model)` from the route (the transcript
is captured from the enclosing scope): bullet-joins the first five
transcript lines and switches over the four fixed templates. -/
def generateMockSummary (transcript template model : String) : String :=
  let baseContent := String.intercalate "\n• " ((transcript.splitOn "\n").take 5)
  let summary := "**Meeting Summary** (Generated with " ++ model ++ ")\n\n"
  let summary := summary ++
    (match template with
     | "standup" =>
       "**Yesterday\x27s Accomplishments:**\n• " ++ baseContent ++
         "\n\n**Today\x27s Plans:**\n• Continue with ongoing tasks\n• Address any blockers\n\n**Blockers/Impediments:**\n• None reported\n"
     | "project" =>
       "**Project Status:**\n• " ++ baseContent ++
         "\n\n**Milestones Achieved:**\n• Key deliverables completed\n\n**Upcoming Deadlines:**\n• Next milestone in 2 weeks\n\n**Risks Identified:**\n• Monitor resource allocation\n\n**Next Steps:**\n• Continue execution as planned\n"
     | "business" =>
       "**Strategic Decisions:**\n• " ++ baseContent ++
         "\n\n**Financial Discussions:**\n• Budget allocation reviewed\n\n**Market Insights:**\n• Current trends analyzed\n\n**Action Items:**\n• Follow up on key initiatives\n• Schedule next review meeting\n"
     | _ =>
       "**Key Points:**\n• " ++ baseContent ++
         "\n\n**Action Items:**\n• Follow up on discussed topics\n• Schedule next meeting\n• Review and implement suggestions\n\n**Decisions Made:**\n• Agreed to move forward with proposed plan\n• Assigned responsibilities to team members\n\n**Next Steps:**\n• Continue monitoring progress\n• Prepare for next phase\n")
  summary ++ "\n*Generated using " ++ model ++ " with " ++ template
    ++ " template*"

/-- The POST /summarize handler: validation, then the mock generation
(the artificial model delay has no observable effect on the response). -/
def summarizePost (req : SummarizeRequest) : SummarizeResult :=
  if falsyOpt req.transcript || falsyOpt req.prompt then
    SummarizeResult.badRequest "Transcript and prompt are required"
  else
    SummarizeResult.ok
      (generateMockSummary (jsStr req.transcript) (jsStr req.template)
        (jsStr req.model))

/-- Claim C10: when transcript or prompt is missing or empty, POST
/summarize answers 400 with "Transcript and prompt are required" and no
summary is generated. -/
theorem summarize_requires_transcript_prompt (req : SummarizeRequest)
    (h : (falsyOpt req.transcript || falsyOpt req.prompt) = true) :
    summarizePost req =
      SummarizeResult.badRequest "Transcript and prompt are required" ∧
    summaryGenerated (summarizePost req) = false := by
  constructor <;> simp [summarizePost, h, summaryGenerated]

/-- Witness for C10: a request with a missing transcript. -/
theorem summarize_requires_transcript_prompt_witness :
    (falsyOpt (none : Option String) || falsyOpt (some "p")) = true ∧
    (summarizePost ⟨none, some "p", none, none⟩ =
        SummarizeResult.badRequest "Transcript and prompt are required" ∧
      summaryGenerated (summarizePost ⟨none, some "p", none, none⟩) = false) :=
  ⟨rfl,
   summarize_requires_transcript_prompt ⟨none, some "p", none, none⟩ rfl⟩
